import Mathlib

/-!
Shallow embedding of the review-history and PR-fetch logic of the
`GitHubService` class (src/unnamed/part_000, identical code in
src/src/githubService.ts), together with proofs of the spec's testable
properties.

The persisted `ReviewStats` map (a JS object keyed by date strings) is
modelled as an association list in insertion order; object-property
assignment replaces the value in place when the key exists and appends
otherwise.  JS `Date` values iterated day-by-day are modelled as natural
numbers counting days since 1970-01-01, with `dayToStr` playing the role
of `toISOString().split('T')[0]`.
-/

/-- The `ReviewEvent` interface of githubService.ts. -/
structure ReviewEvent where
  prId : Nat
  prTitle : String
  prNumber : Nat
  repository : String
  reviewedAt : String
  reviewState : String
  prUrl : Option String
deriving DecidableEq

/-- The `DailyReviewStats` interface of githubService.ts. -/
structure DailyReviewStats where
  date : String
  count : Nat
  reviews : List ReviewEvent
deriving DecidableEq

/-- The `ReviewStats` map (`{ [date: string]: DailyReviewStats }`),
as an association list in JS object insertion order. -/
abbrev ReviewStats : Type := List (String × DailyReviewStats)

/-- JS object property write `stats[k] = v`: replace in place if the key
exists, otherwise append (insertion order). -/
def setEntry : List (String × DailyReviewStats) → String → DailyReviewStats → List (String × DailyReviewStats)
  | [], k, v => [(k, v)]
  | (k₀, v₀) :: rest, k, v =>
      if k₀ = k then (k, v) :: rest else (k₀, v₀) :: setEntry rest k v

/-- JS object property read `stats[k]` (as an `Option`). -/
def getEntry (stats : ReviewStats) (k : String) : Option DailyReviewStats :=
  List.lookup k stats

/-- `review.reviewedAt.split('T')[0]`: the date key derived from an
ISO-8601 timestamp, i.e. the prefix before the first `'T'` (the whole
string when no `'T'` occurs). -/
def dateKeyOf (ts : String) : String :=
  String.mk (ts.data.takeWhile (fun c => c != 'T'))

/-- The day bucket the store works on in `recordReview`: the existing
entry, or the freshly created `{ date, count: 0, reviews: [] }`. -/
def bucketAt (stats : ReviewStats) (d : String) : DailyReviewStats :=
  (getEntry stats d).getD { date := d, count := 0, reviews := [] }

/-- `GitHubService.recordReview` (part_000 lines 930-952): derive the date
key, create an empty bucket if missing, scan for an event with matching
(prId, reviewedAt); if found the persisted map is unchanged (the update is
only issued in the not-found branch), otherwise append the event and set
the bucket's count to the new list length. -/
def recordReview (stats : ReviewStats) (review : ReviewEvent) : ReviewStats :=
  let date := dateKeyOf review.reviewedAt
  let bucket := bucketAt stats date
  match bucket.reviews.find? (fun r =>
      r.prId == review.prId && r.reviewedAt == review.reviewedAt) with
  | some _ => stats
  | none =>
      let newReviews := bucket.reviews ++ [review]
      setEntry stats date
        { date := bucket.date, count := newReviews.length, reviews := newReviews }

/-- `GitHubService.removeReviewByPR` (part_000 lines 1014-1031): in every
day bucket drop the events matching (prNumber, repository), recompute the
count as the new list length, and delete the bucket when its count is 0. -/
def removeReviewByPR (stats : ReviewStats) (prNumber : Nat) (repository : String) : ReviewStats :=
  stats.filterMap (fun p =>
    let newReviews := p.2.reviews.filter (fun review =>
      !(review.prNumber == prNumber && review.repository == repository))
    let dayStat : DailyReviewStats :=
      { date := p.2.date, count := newReviews.length, reviews := newReviews }
    if dayStat.count = 0 then none else some (p.1, dayStat))

/-- `GitHubService.cleanupLocalViewedReviews` (part_000 lines 1036-1059):
in every day bucket keep only events whose reviewState is not `"VIEWED"`,
recompute the count, and delete the bucket when its count is 0. -/
def cleanupLocalViewedReviews (stats : ReviewStats) : ReviewStats :=
  stats.filterMap (fun p =>
    let newReviews := p.2.reviews.filter (fun review =>
      review.reviewState != "VIEWED")
    let dayStat : DailyReviewStats :=
      { date := p.2.date, count := newReviews.length, reviews := newReviews }
    if dayStat.count = 0 then none else some (p.1, dayStat))

/-- Proleptic Gregorian conversion of a day number (days since
1970-01-01) to (year, month, day); implements what
`Date.toISOString` exposes as the date component. -/
def civilFromDays (z : Nat) : Nat × Nat × Nat :=
  let z₁ := z + 719468
  let era := z₁ / 146097
  let doe := z₁ % 146097
  let yoe := (doe - doe / 1460 + doe / 36524 - doe / 146096) / 365
  let y := yoe + era * 400
  let doy := doe - (365 * yoe + yoe / 4 - yoe / 100)
  let mp := (5 * doy + 2) / 153
  let d := doy - (153 * mp + 2) / 5 + 1
  let m := if mp < 10 then mp + 3 else mp - 9
  (if m ≤ 2 then y + 1 else y, m, d)

/-- Zero-pad to two digits. -/
def pad2 (n : Nat) : String :=
  if n < 10 then "0" ++ toString n else toString n

/-- Zero-pad to four digits. -/
def pad4 (n : Nat) : String :=
  if n < 1000 then
    if n < 100 then
      if n < 10 then "000" ++ toString n else "00" ++ toString n
    else "0" ++ toString n
  else toString n

/-- `current.toISOString().split('T')[0]` for a day number: the
`YYYY-MM-DD` key string. -/
def dayToStr (z : Nat) : String :=
  let c := civilFromDays z
  pad4 c.1 ++ "-" ++ pad2 c.2.1 ++ "-" ++ pad2 c.2.2

/-- `stats[dateStr]?.count || 0`. -/
def countAt (stats : ReviewStats) (d : String) : Nat :=
  match getEntry stats d with
  | some dayStat => dayStat.count
  | none => 0

/-- `GitHubService.getStatsForDateRange` (part_000 lines 909-925): walk
day-by-day from `startDate` while `current <= endDate`, emitting
`(dateStr, stats[dateStr]?.count || 0)` and advancing by one day. -/
def getStatsForDateRange (stats : ReviewStats) (startDate endDate : Nat) : List (String × Nat) :=
  if startDate ≤ endDate then
    (dayToStr startDate, countAt stats (dayToStr startDate)) ::
      getStatsForDateRange stats (startDate + 1) endDate
  else []
termination_by endDate + 1 - startDate
decreasing_by omega

/-- `GitHubService.getTotalReviewCount` (part_000 lines 978-981): reduce
the range stats, summing the `count` fields. -/
def getTotalReviewCount (stats : ReviewStats) (startDate endDate : Nat) : Nat :=
  (getStatsForDateRange stats startDate endDate).foldl (fun sum day => sum + day.2) 0

/-- `GitHubService.syncReviewHistory` (part_000 lines 958-973) with the
fetched completed-review list supplied as input: record every fetched
event in order, and return the number fetched. -/
def syncReviewHistory (stats : ReviewStats) (fetched : List ReviewEvent) : ReviewStats × Nat :=
  (fetched.foldl recordReview stats, fetched.length)

/-- `GitHubService.clearAndResync` (part_000 lines 1064-1071): reset the
persisted map to `{}`, then sync the fetched events into it. -/
def clearAndResync (fetched : List ReviewEvent) (_stats : ReviewStats) : ReviewStats × Nat :=
  syncReviewHistory ({} : ReviewStats) fetched

/-- A user object from the API (`item.user` / `review.user`), which may be
absent (`null`). -/
structure GHUser where
  login : String
  avatar_url : String
deriving DecidableEq

/-- A label from the API (`{ name, color }`). -/
structure PRLabel where
  name : String
  color : String
deriving DecidableEq

/-- The fields of a search-result item (`data.items` element) that
`getAssignedPRReviews` / `getCompletedReviews` read. -/
structure SearchItem where
  id : Nat
  title : String
  html_url : String
  repository_url : String
  user : Option GHUser
  created_at : String
  updated_at : String
  state : String
  number : Nat
  comments : Nat
  labels : List PRLabel
deriving DecidableEq

/-- The fields of the per-PR detail response (`pulls.get`) that
`getAssignedPRReviews` reads. -/
structure PRDetail where
  draft : Bool
  requested_reviewers : List GHUser
  review_comments : Nat
  comments : Nat
  additions : Nat
  deletions : Nat
deriving DecidableEq

/-- The `PullRequest` interface of githubService.ts (nested objects
flattened into sub-structures). -/
structure RepoInfo where
  full_name : String
  name : String
  owner_login : String
deriving DecidableEq

/-- The `PullRequest` interface of githubService.ts. -/
structure PullRequest where
  id : Nat
  title : String
  html_url : String
  repository : RepoInfo
  user_login : String
  user_avatar_url : String
  created_at : String
  updated_at : String
  draft : Bool
  state : String
  number : Nat
  requested_reviewers : List GHUser
  review_comments : Nat
  comments : Nat
  additions : Nat
  deletions : Nat
  labels : List PRLabel
deriving DecidableEq

/-- `item.repository_url.split('/')` as a list of strings. -/
def urlParts (u : String) : List String :=
  (u.data.splitOn '/').map String.mk

/-- `urlParts[urlParts.length - 2]` — the owner segment of a repository
URL (`"undefined"` standing for the out-of-range JS access). -/
def urlOwner (u : String) : String :=
  let ps := urlParts u
  if ps.length < 2 then "undefined" else (ps[ps.length - 2]?).getD ""

/-- `urlParts[urlParts.length - 1]` — the repo segment of a repository
URL. -/
def urlRepo (u : String) : String :=
  let ps := urlParts u
  (ps[ps.length - 1]?).getD ""

/-- `item.user?.login || 'unknown'` (an empty login string is falsy in
JS and also falls back). -/
def loginOrUnknown (user : Option GHUser) : String :=
  match user with
  | some u => if u.login = "" then "unknown" else u.login
  | none => "unknown"

/-- `item.user?.avatar_url || ''`. -/
def avatarOrEmpty (user : Option GHUser) : String :=
  match user with
  | some u => u.avatar_url
  | none => ""

/-- The per-item assembly step of `getAssignedPRReviews` (part_000 lines
696-768): build a `PullRequest` from a search item and the result of its
detail fetch; `none` stands for a failed `pulls.get` call and selects the
degraded summary-only branch of the `try/catch`. -/
def assemblePR (item : SearchItem) : Option PRDetail → PullRequest
  | some prDetails =>
      { id := item.id
        title := item.title
        html_url := item.html_url
        repository :=
          { full_name := urlOwner item.repository_url ++ "/" ++ urlRepo item.repository_url
            name := urlRepo item.repository_url
            owner_login := urlOwner item.repository_url }
        user_login := loginOrUnknown item.user
        user_avatar_url := avatarOrEmpty item.user
        created_at := item.created_at
        updated_at := item.updated_at
        draft := prDetails.draft
        state := item.state
        number := item.number
        requested_reviewers := prDetails.requested_reviewers
        review_comments := prDetails.review_comments
        comments := prDetails.comments
        additions := prDetails.additions
        deletions := prDetails.deletions
        labels := item.labels }
  | none =>
      { id := item.id
        title := item.title
        html_url := item.html_url
        repository :=
          { full_name := urlOwner item.repository_url ++ "/" ++ urlRepo item.repository_url
            name := urlRepo item.repository_url
            owner_login := urlOwner item.repository_url }
        user_login := loginOrUnknown item.user
        user_avatar_url := avatarOrEmpty item.user
        created_at := item.created_at
        updated_at := item.updated_at
        draft := false
        state := item.state
        number := item.number
        requested_reviewers := []
        review_comments := 0
        comments := item.comments
        additions := 0
        deletions := 0
        labels := item.labels }

/-- `GitHubService.getAssignedPRReviews` (part_000 lines 672-787) with the
search items and each item's detail-fetch outcome supplied as input:
assemble every item (degrading on a failed detail fetch), then
`prs.filter(pr => !pr.draft)`. -/
def getAssignedPRReviews (items : List (SearchItem × Option PRDetail)) : List PullRequest :=
  (items.map (fun p => assemblePR p.1 p.2)).filter (fun pr => !pr.draft)

/-- `GitHubService.checkForNewReviews` (part_000 lines 789-799):
fetch the assigned PRs, read the stored previous count (default 0),
overwrite it with the current count, and return
`Math.max(0, currentCount - previousCount)`.  The result pairs the
returned delta with the newly stored count. -/
def checkForNewReviews (items : List (SearchItem × Option PRDetail))
    (previousStored : Option Nat) : Int × Nat :=
  let currentCount := (getAssignedPRReviews items).length
  let previousCount := previousStored.getD 0
  (max 0 ((currentCount : Int) - (previousCount : Int)), currentCount)

/-- The fields of a review-list element (`pulls.listReviews`) that
`getCompletedReviews` reads; `submitted_at` is `none` for an
unsubmitted/pending review. -/
structure GHReview where
  user : Option GHUser
  state : String
  submitted_at : Option String
deriving DecidableEq

/-- `x?.login === login` for an optional user object (`undefined === s`
is false). -/
def loginMatches (user : Option GHUser) (login : String) : Bool :=
  match user with
  | some u => u.login == login
  | none => false

/-- The per-item body of the `getCompletedReviews` loop (part_000 lines
852-890): skip the item when its author is the authenticated user; `none`
for the review-list fetch stands for a failed `pulls.listReviews` call,
whose `catch` skips the item; otherwise keep the current user's reviews
and emit one event per submitted review. -/
def eventsForItem (userLogin : String) (item : SearchItem)
    (fetched : Option (List GHReview)) : List ReviewEvent :=
  if loginMatches item.user userLogin then []
  else
    match fetched with
    | none => []
    | some prReviews =>
        let userReviews := prReviews.filter (fun review =>
          loginMatches review.user userLogin)
        userReviews.filterMap (fun review =>
          review.submitted_at.map (fun ts =>
            { prId := item.id
              prTitle := item.title
              prNumber := item.number
              repository := urlOwner item.repository_url ++ "/" ++ urlRepo item.repository_url
              reviewedAt := ts
              reviewState := review.state
              prUrl := some item.html_url }))

/-- `GitHubService.getCompletedReviews` (part_000 lines 826-897) with the
search items and each item's review-list fetch outcome supplied as input:
the events pushed by the loop, in order. -/
def getCompletedReviews (userLogin : String)
    (items : List (SearchItem × Option (List GHReview))) : List ReviewEvent :=
  match items with
  | [] => []
  | p :: rest => eventsForItem userLogin p.1 p.2 ++ getCompletedReviews userLogin rest

/-- Number of stored events with the given (prId, reviewedAt) key in the
day bucket derived from the timestamp. -/
def matchCount (stats : ReviewStats) (prId : Nat) (ts : String) : Nat :=
  ((bucketAt stats (dateKeyOf ts)).reviews.filter (fun r =>
    r.prId == prId && r.reviewedAt == ts)).length

lemma lookup_setEntry_self (s : List (String × DailyReviewStats)) (k : String)
    (v : DailyReviewStats) : List.lookup k (setEntry s k v) = some v := by
  induction s with
  | nil => simp [setEntry, List.lookup]
  | cons hd tl ih =>
    obtain ⟨k₀, v₀⟩ := hd
    by_cases h : k₀ = k
    · simp [setEntry, h, List.lookup]
    · have hne : (k == k₀) = false := by
        simp [Ne.symm h]
      simp [setEntry, h, List.lookup, hne, ih]

lemma mem_setEntry {s : List (String × DailyReviewStats)} {k : String}
    {v : DailyReviewStats} {x : String × DailyReviewStats}
    (hx : x ∈ setEntry s k v) : x = (k, v) ∨ x ∈ s := by
  induction s with
  | nil => simpa [setEntry] using hx
  | cons hd tl ih =>
    obtain ⟨k₀, v₀⟩ := hd
    by_cases h : k₀ = k
    · simp only [setEntry, if_pos h, List.mem_cons] at hx
      rcases hx with hx | hx
      · exact Or.inl hx
      · exact Or.inr (List.mem_cons_of_mem _ hx)
    · simp only [setEntry, if_neg h, List.mem_cons] at hx
      rcases hx with hx | hx
      · exact Or.inr (by simp [hx])
      · rcases ih hx with hx | hx
        · exact Or.inl hx
        · exact Or.inr (List.mem_cons_of_mem _ hx)

lemma bucketAt_setEntry_self (s : ReviewStats) (k : String) (v : DailyReviewStats) :
    bucketAt (setEntry s k v) k = v := by
  simp [bucketAt, getEntry, lookup_setEntry_self]

/-- Core of claim C1, for one fixed order of the two calls. -/
lemma recordReview_pair_core (stats : ReviewStats) (a b : ReviewEvent)
    (hId : a.prId = b.prId) (hTs : a.reviewedAt = b.reviewedAt)
    (hPre : matchCount stats b.prId b.reviewedAt ≤ 1) :
    matchCount (recordReview (recordReview stats a) b) b.prId b.reviewedAt = 1 ∧
    recordReview (recordReview stats a) b = recordReview stats a := by
  have hmatch : (fun r : ReviewEvent => r.prId == a.prId && r.reviewedAt == a.reviewedAt)
      = (fun r : ReviewEvent => r.prId == b.prId && r.reviewedAt == b.reviewedAt) := by
    funext r
    rw [hId, hTs]
  set f := fun r : ReviewEvent => r.prId == b.prId && r.reviewedAt == b.reviewedAt with hf
  have hkey : dateKeyOf a.reviewedAt = dateKeyOf b.reviewedAt := by rw [hTs]
  set d := dateKeyOf b.reviewedAt with hd
  have hra : recordReview stats a =
      (match (bucketAt stats d).reviews.find? f with
       | some _ => stats
       | none =>
          setEntry stats d
            { date := (bucketAt stats d).date
              count := ((bucketAt stats d).reviews ++ [a]).length
              reviews := (bucketAt stats d).reviews ++ [a] }) := by
    rw [recordReview, hmatch, hkey]
  cases hfind : (bucketAt stats d).reviews.find? f with
  | some r =>
    have h₁ : recordReview stats a = stats := by rw [hra, hfind]
    have h₂ : recordReview stats b = stats := by
      rw [recordReview]
      rw [show dateKeyOf b.reviewedAt = d from rfl] at *
      rw [← hf, hfind]
    have hcount : matchCount stats b.prId b.reviewedAt = 1 := by
      have hmem := List.mem_of_find?_eq_some hfind
      have hfr : f r = true := List.find?_some hfind
      have hpos : 0 < ((bucketAt stats d).reviews.filter f).length := by
        have : r ∈ (bucketAt stats d).reviews.filter f := List.mem_filter.mpr ⟨hmem, hfr⟩
        exact List.length_pos.mpr (List.ne_nil_of_mem this)
      have := hPre
      rw [matchCount, ← hf, ← hd] at this ⊢
      omega
    rw [h₁, h₂]
    exact ⟨hcount, rfl⟩
  | none =>
    have hfa : f a = true := by
      rw [hf]
      simp [hId, hTs]
    have hfilnil : (bucketAt stats d).reviews.filter f = [] := by
      rw [List.filter_eq_nil_iff]
      intro x hx
      have := List.find?_eq_none.mp hfind x hx
      simpa using this
    have h₁ : recordReview stats a =
        setEntry stats d
          { date := (bucketAt stats d).date
            count := ((bucketAt stats d).reviews ++ [a]).length
            reviews := (bucketAt stats d).reviews ++ [a] } := by
      rw [hra, hfind]
    have hbuck : bucketAt (recordReview stats a) d =
        { date := (bucketAt stats d).date
          count := ((bucketAt stats d).reviews ++ [a]).length
          reviews := (bucketAt stats d).reviews ++ [a] } := by
      rw [h₁, bucketAt_setEntry_self]
    have hfind₂ : (bucketAt (recordReview stats a) d).reviews.find? f ≠ none := by
      intro hnone
      have := List.find?_eq_none.mp hnone a (by rw [hbuck]; simp)
      exact this hfa
    have h₂ : recordReview (recordReview stats a) b = recordReview stats a := by
      rw [recordReview]
      rw [show dateKeyOf b.reviewedAt = d from rfl] at *
      rw [← hf]
      cases hfind₂' : (bucketAt (recordReview stats a) d).reviews.find? f with
      | some _ => rfl
      | none => exact absurd hfind₂' hfind₂
    have hcount : matchCount (recordReview stats a) b.prId b.reviewedAt = 1 := by
      rw [matchCount, ← hf, ← hd, hbuck]
      simp [List.filter_append, hfilnil, hfa]
    rw [h₂]
    exact ⟨hcount, rfl⟩

/-- Claim C1: for events with identical (prId, reviewedAt), recording both
in either order, starting from any stored map (one holding at most one
copy of that key), leaves exactly one stored copy of the event's key in
the day bucket derived from the timestamp, and the second call is a no-op
on the persisted map. -/
theorem recordReview_duplicate_idempotent (stats : ReviewStats) (e1 e2 : ReviewEvent)
    (hId : e1.prId = e2.prId) (hTs : e1.reviewedAt = e2.reviewedAt)
    (hPre : matchCount stats e2.prId e2.reviewedAt ≤ 1) :
    (matchCount (recordReview (recordReview stats e1) e2) e2.prId e2.reviewedAt = 1 ∧
     recordReview (recordReview stats e1) e2 = recordReview stats e1) ∧
    (matchCount (recordReview (recordReview stats e2) e1) e2.prId e2.reviewedAt = 1 ∧
     recordReview (recordReview stats e2) e1 = recordReview stats e2) := by
  refine ⟨recordReview_pair_core stats e1 e2 hId hTs hPre, ?_⟩
  have hPre₁ : matchCount stats e1.prId e1.reviewedAt ≤ 1 := by
    rw [hId, hTs]
    exact hPre
  have h := recordReview_pair_core stats e2 e1 hId.symm hTs.symm hPre₁
  rwa [hId, hTs] at h

/-- The store invariant of the spec: every persisted day bucket's `count`
equals the length of its event list, and no zero-count bucket exists. -/
def StoreInv (stats : ReviewStats) : Prop :=
  ∀ p ∈ stats, p.2.count = p.2.reviews.length ∧ p.2.count ≠ 0

/-- Either `recordReview` leaves the persisted map unchanged, or it writes
one bucket whose count is its list length and nonzero. -/
lemma recordReview_cases (stats : ReviewStats) (ev : ReviewEvent) :
    recordReview stats ev = stats ∨
    ∃ nb : DailyReviewStats, nb.count = nb.reviews.length ∧ nb.count ≠ 0 ∧
      recordReview stats ev = setEntry stats (dateKeyOf ev.reviewedAt) nb := by
  cases hfind : List.find? (fun r => r.prId == ev.prId && r.reviewedAt == ev.reviewedAt)
      (bucketAt stats (dateKeyOf ev.reviewedAt)).reviews with
  | some r =>
    left
    rw [recordReview, hfind]
  | none =>
    right
    refine ⟨{ date := (bucketAt stats (dateKeyOf ev.reviewedAt)).date
              count := ((bucketAt stats (dateKeyOf ev.reviewedAt)).reviews ++ [ev]).length
              reviews := (bucketAt stats (dateKeyOf ev.reviewedAt)).reviews ++ [ev] },
            rfl, by simp, ?_⟩
    rw [recordReview, hfind]

/-- The compact-and-reindex step shared by `removeReviewByPR` and
`cleanupLocalViewedReviews` re-establishes the store invariant
unconditionally. -/
lemma StoreInv_filterMap (stats : ReviewStats) (g : ReviewEvent → Bool) :
    StoreInv (stats.filterMap (fun p =>
      let newReviews := p.2.reviews.filter g
      let dayStat : DailyReviewStats :=
        { date := p.2.date, count := newReviews.length, reviews := newReviews }
      if dayStat.count = 0 then none else some (p.1, dayStat))) := by
  intro x hx
  rcases List.mem_filterMap.mp hx with ⟨q, hq, hfq⟩
  dsimp only at hfq
  by_cases h : (q.2.reviews.filter g).length = 0
  · rw [if_pos h] at hfq
    exact absurd hfq (by simp)
  · rw [if_neg h] at hfq
    rw [Option.some.injEq] at hfq
    rw [← hfq]
    exact ⟨rfl, h⟩

/-- Claim C2: after any single History Store mutation applied to a map
satisfying the bucket invariant (count = list length, no zero-count
bucket), the resulting persisted map satisfies the invariant again. -/
theorem mutations_preserve_invariant (stats : ReviewStats) (ev : ReviewEvent)
    (prNumber : Nat) (repository : String) (hInv : StoreInv stats) :
    StoreInv (recordReview stats ev) ∧
    StoreInv (removeReviewByPR stats prNumber repository) ∧
    StoreInv (cleanupLocalViewedReviews stats) := by
  refine ⟨?_, ?_, ?_⟩
  · rcases recordReview_cases stats ev with h | ⟨nb, hcount, hne, h⟩
    · rw [h]
      exact hInv
    · rw [h]
      intro x hx
      rcases mem_setEntry hx with hx' | hx'
      · rw [hx']
        exact ⟨hcount, hne⟩
      · exact hInv x hx'
  · exact StoreInv_filterMap stats _
  · exact StoreInv_filterMap stats _

/-- A concrete approved-review event, for witnesses. -/
def sampleEventA : ReviewEvent :=
  { prId := 2
    prTitle := "C"
    prNumber := 7
    repository := "foo/bar"
    reviewedAt := "2024-01-01T12:00:00Z"
    reviewState := "APPROVED"
    prUrl := none }

/-- A concrete commented-review event, for witnesses. -/
def sampleEventB : ReviewEvent :=
  { prId := 1
    prTitle := "A"
    prNumber := 5
    repository := "foo/bar"
    reviewedAt := "2024-01-01T10:00:00Z"
    reviewState := "COMMENTED"
    prUrl := none }

/-- A concrete synthetic viewed-marker event, for witnesses. -/
def sampleEventV : ReviewEvent :=
  { prId := 3
    prTitle := "V"
    prNumber := 9
    repository := "foo/bar"
    reviewedAt := "2024-01-02T08:00:00Z"
    reviewState := "VIEWED"
    prUrl := none }

/-- A concrete stored map satisfying the store invariant, for witnesses. -/
def sampleStats : ReviewStats :=
  [("2024-01-01", { date := "2024-01-01", count := 1, reviews := [sampleEventA] }),
   ("2024-01-02", { date := "2024-01-02", count := 1, reviews := [sampleEventV] })]

/-- Witness for claim C2 at a concrete invariant-satisfying map. -/
theorem mutations_preserve_invariant_witness :
    StoreInv (recordReview sampleStats sampleEventB) ∧
    StoreInv (removeReviewByPR sampleStats 7 "foo/bar") ∧
    StoreInv (cleanupLocalViewedReviews sampleStats) :=
  mutations_preserve_invariant sampleStats sampleEventB 7 "foo/bar"
    (by unfold StoreInv; decide)

/-- A duplicate of `sampleEventB`: same (prId, reviewedAt), different
payload fields. -/
def sampleEventBdup : ReviewEvent :=
  { sampleEventB with prTitle := "B", reviewState := "APPROVED" }

set_option maxRecDepth 4000 in
/-- Witness for claim C1: recording a (prId, reviewedAt) duplicate pair
into the empty map, in either order. -/
theorem recordReview_duplicate_idempotent_witness :
    (matchCount (recordReview (recordReview ({} : ReviewStats) sampleEventB) sampleEventBdup)
        sampleEventBdup.prId sampleEventBdup.reviewedAt = 1 ∧
      recordReview (recordReview ({} : ReviewStats) sampleEventB) sampleEventBdup =
        recordReview ({} : ReviewStats) sampleEventB) ∧
    (matchCount (recordReview (recordReview ({} : ReviewStats) sampleEventBdup) sampleEventB)
        sampleEventBdup.prId sampleEventBdup.reviewedAt = 1 ∧
      recordReview (recordReview ({} : ReviewStats) sampleEventBdup) sampleEventB =
        recordReview ({} : ReviewStats) sampleEventBdup) :=
  recordReview_duplicate_idempotent {} sampleEventB sampleEventBdup rfl rfl (by decide)

/-- Unfolding of the day-by-day while loop of `getStatsForDateRange` into
an indexed map over the day offsets. -/
lemma getStatsForDateRange_eq_map (stats : ReviewStats) (e : Nat) :
    ∀ n s, e + 1 - s = n →
      getStatsForDateRange stats s e =
        (List.range n).map (fun i => (dayToStr (s + i), countAt stats (dayToStr (s + i)))) := by
  intro n
  induction n with
  | zero =>
    intro s hs
    have h : ¬ s ≤ e := by omega
    rw [getStatsForDateRange, if_neg h]
    simp
  | succ n ih =>
    intro s hs
    have h : s ≤ e := by omega
    rw [getStatsForDateRange, if_pos h, ih (s + 1) (by omega)]
    rw [List.range_succ_eq_map, List.map_cons, List.map_map]
    refine List.cons_eq_cons.mpr ⟨?_, ?_⟩
    · rw [Nat.add_zero]
    · refine List.map_congr_left ?_
      intro i _
      have hsi : s + 1 + i = s + (i + 1) := by omega
      simp only [Function.comp_apply, Nat.succ_eq_add_one, hsi]

/-- Claim C3: for start ≤ end the range query returns exactly
`end - start + 1` entries; the entry at offset `i` is the day string of
day `start + i` paired with that day's stored count; and a day key with
no stored bucket contributes count 0. -/
theorem getStatsForDateRange_spec (stats : ReviewStats) (s e : Nat) (h : s ≤ e) :
    (getStatsForDateRange stats s e).length = e - s + 1 ∧
    (∀ i, i < e - s + 1 →
      (getStatsForDateRange stats s e)[i]? =
        some (dayToStr (s + i), countAt stats (dayToStr (s + i)))) ∧
    (∀ d, getEntry stats d = none → countAt stats d = 0) := by
  have hmap := getStatsForDateRange_eq_map stats e (e + 1 - s) s rfl
  refine ⟨?_, ?_, ?_⟩
  · rw [hmap]
    simp only [List.length_map, List.length_range]
    omega
  · intro i hi
    rw [hmap, List.getElem?_map, List.getElem?_range (by omega : i < e + 1 - s)]
    rfl
  · intro d hd
    rw [countAt, hd]

/-- Witness for claim C3 on a concrete three-day range over a concrete
map. -/
theorem getStatsForDateRange_spec_witness :
    (getStatsForDateRange sampleStats 0 2).length = 2 - 0 + 1 ∧
    (getStatsForDateRange sampleStats 0 2)[1]? =
      some (dayToStr (0 + 1), countAt sampleStats (dayToStr (0 + 1))) :=
  ⟨(getStatsForDateRange_spec sampleStats 0 2 (by decide)).1,
   (getStatsForDateRange_spec sampleStats 0 2 (by decide)).2.1 1 (by decide)⟩

lemma foldl_add_counts (l : List (String × Nat)) (a : Nat) :
    l.foldl (fun sum day => sum + day.2) a = a + (l.map Prod.snd).sum := by
  induction l generalizing a with
  | nil => simp
  | cons hd tl ih =>
    simp [ih, Nat.add_assoc]

/-- Claim C8: the total review count for a range is exactly the sum of
the `count` fields returned by `getStatsForDateRange` for the same range;
it is computed from that very list, with no independent aggregation. -/
theorem getTotalReviewCount_eq_sum (stats : ReviewStats) (s e : Nat) (_h : s ≤ e) :
    getTotalReviewCount stats s e = ((getStatsForDateRange stats s e).map Prod.snd).sum := by
  rw [getTotalReviewCount, foldl_add_counts, Nat.zero_add]

/-- Witness for claim C8 on a concrete range over a concrete map. -/
theorem getTotalReviewCount_eq_sum_witness :
    getTotalReviewCount sampleStats 19723 19725 =
      ((getStatsForDateRange sampleStats 19723 19725).map Prod.snd).sum :=
  getTotalReviewCount_eq_sum sampleStats 19723 19725 (by decide)

/-- Claim C4: `cleanupLocalViewedReviews` removes exactly the events with
the synthetic `"VIEWED"` state.  Every bucket remaining after cleanup
comes from an original bucket of the same key and date, has its count
recomputed to the new list length, is non-empty, and holds exactly the
original bucket's non-`"VIEWED"` events; conversely every non-`"VIEWED"`
event of the original map survives in a bucket with its original key and
date. -/
theorem cleanup_removes_only_viewed (stats : ReviewStats) :
    (∀ p ∈ cleanupLocalViewedReviews stats, ∃ b : DailyReviewStats,
      (p.1, b) ∈ stats ∧ p.2.date = b.date ∧
      p.2.count = p.2.reviews.length ∧ p.2.reviews ≠ [] ∧
      ∀ ev : ReviewEvent, ev ∈ p.2.reviews ↔ (ev ∈ b.reviews ∧ ev.reviewState ≠ "VIEWED")) ∧
    (∀ p ∈ stats, ∀ ev ∈ p.2.reviews, ev.reviewState ≠ "VIEWED" →
      ∃ q ∈ cleanupLocalViewedReviews stats,
        q.1 = p.1 ∧ q.2.date = p.2.date ∧ ev ∈ q.2.reviews) := by
  constructor
  · intro p hp
    rw [cleanupLocalViewedReviews] at hp
    rcases List.mem_filterMap.mp hp with ⟨q, hq, hfq⟩
    dsimp only at hfq
    by_cases h : (q.2.reviews.filter (fun review => review.reviewState != "VIEWED")).length = 0
    · rw [if_pos h] at hfq
      exact absurd hfq (by simp)
    · rw [if_neg h] at hfq
      rw [Option.some.injEq] at hfq
      refine ⟨q.2, ?_, ?_, ?_, ?_, ?_⟩
      · rw [← hfq]
        exact hq
      · rw [← hfq]
      · rw [← hfq]
      · rw [← hfq]
        dsimp only
        intro hnil
        exact h (by rw [hnil]; rfl)
      · intro ev
        rw [← hfq]
        simp [List.mem_filter, bne_iff_ne]
  · intro p hp ev hev hstate
    have hevf : ev ∈ p.2.reviews.filter (fun review => review.reviewState != "VIEWED") :=
      List.mem_filter.mpr ⟨hev, by simpa [bne_iff_ne] using hstate⟩
    have hlen : ¬ (p.2.reviews.filter (fun review => review.reviewState != "VIEWED")).length = 0 := by
      intro h0
      rw [List.length_eq_zero] at h0
      rw [h0] at hevf
      exact absurd hevf (List.not_mem_nil ev)
    refine ⟨(p.1, { date := p.2.date
                    count := (p.2.reviews.filter (fun review => review.reviewState != "VIEWED")).length
                    reviews := p.2.reviews.filter (fun review => review.reviewState != "VIEWED") }),
            ?_, rfl, rfl, hevf⟩
    rw [cleanupLocalViewedReviews]
    refine List.mem_filterMap.mpr ⟨p, hp, ?_⟩
    dsimp only
    rw [if_neg hlen]

/-- Witness for claim C4: the approved event of the sample map survives
cleanup in its original bucket. -/
theorem cleanup_removes_only_viewed_witness :
    ∃ q ∈ cleanupLocalViewedReviews sampleStats,
      q.1 = "2024-01-01" ∧ q.2.date = "2024-01-01" ∧ sampleEventA ∈ q.2.reviews :=
  (cleanup_removes_only_viewed sampleStats).2
    ("2024-01-01", { date := "2024-01-01", count := 1, reviews := [sampleEventA] })
    (by rw [sampleStats]; exact List.mem_cons_self _ _)
    sampleEventA (List.mem_cons_self _ _) (by decide)

/-- Claim C7: `clearAndResync` ignores the prior persisted map (it clears
it first), so a second run over the same fetched events reproduces the
same persisted map. -/
theorem clearAndResync_idempotent (fetched : List ReviewEvent) (stats : ReviewStats) :
    (clearAndResync fetched (clearAndResync fetched stats).1).1 =
      (clearAndResync fetched stats).1 := rfl

/-- Claim C5: the list returned by `getAssignedPRReviews` never contains
a pull request whose draft flag is true, for every fetch outcome
(including failed per-item detail fetches). -/
theorem getAssignedPRReviews_no_drafts (items : List (SearchItem × Option PRDetail))
    (pr : PullRequest) (hpr : pr ∈ getAssignedPRReviews items) : pr.draft = false := by
  rw [getAssignedPRReviews] at hpr
  have h := (List.mem_filter.mp hpr).2
  simpa using h

/-- A concrete search item, for witnesses. -/
def sampleItem (n : Nat) : SearchItem :=
  { id := n
    title := "t"
    html_url := "u"
    repository_url := "https://api.github.com/repos/foo/bar"
    user := some { login := "bob", avatar_url := "" }
    created_at := "2024-01-01T00:00:00Z"
    updated_at := "2024-01-02T00:00:00Z"
    state := "open"
    number := n
    comments := 0
    labels := [] }

/-- A concrete non-draft detail response, for witnesses. -/
def readyDetail : PRDetail :=
  { draft := false
    requested_reviewers := []
    review_comments := 3
    comments := 4
    additions := 10
    deletions := 2 }

/-- A concrete draft detail response, for witnesses. -/
def draftDetail : PRDetail :=
  { readyDetail with draft := true }

/-- A concrete fetch outcome: one ready PR, one draft PR, one PR whose
detail fetch failed. -/
def sampleFetch : List (SearchItem × Option PRDetail) :=
  [(sampleItem 1, some readyDetail), (sampleItem 2, some draftDetail), (sampleItem 3, none)]

set_option maxRecDepth 8000 in
/-- Witness for claim C5: a member of the returned list for a concrete
fetch outcome has a false draft flag. -/
theorem getAssignedPRReviews_no_drafts_witness :
    (assemblePR (sampleItem 1) (some readyDetail)).draft = false :=
  getAssignedPRReviews_no_drafts sampleFetch (assemblePR (sampleItem 1) (some readyDetail))
    (by decide)

/-- Claim C9: when the detail fetch for an item fails, the item is still
returned (the batch succeeds), degraded to summary-only fields:
additions 0, deletions 0, draft false, no requested reviewers, zero
review comments. -/
theorem detailFailure_degrades (item : SearchItem) :
    (assemblePR item none).additions = 0 ∧
    (assemblePR item none).deletions = 0 ∧
    (assemblePR item none).draft = false ∧
    (assemblePR item none).requested_reviewers = [] ∧
    (assemblePR item none).review_comments = 0 ∧
    ∀ items : List (SearchItem × Option PRDetail),
      (item, none) ∈ items → assemblePR item none ∈ getAssignedPRReviews items := by
  refine ⟨rfl, rfl, rfl, rfl, rfl, ?_⟩
  intro items hmem
  rw [getAssignedPRReviews]
  refine List.mem_filter.mpr ⟨List.mem_map.mpr ⟨(item, none), hmem, rfl⟩, rfl⟩

set_option maxRecDepth 8000 in
/-- Witness for claim C9: the item with the failed detail fetch in the
concrete fetch outcome appears, degraded, in the returned list. -/
theorem detailFailure_degrades_witness :
    assemblePR (sampleItem 3) none ∈ getAssignedPRReviews sampleFetch :=
  (detailFailure_degrades (sampleItem 3)).2.2.2.2.2 sampleFetch (by decide)

lemma getCompletedReviews_cons (userLogin : String)
    (p : SearchItem × Option (List GHReview)) (rest : List (SearchItem × Option (List GHReview))) :
    getCompletedReviews userLogin (p :: rest) =
      eventsForItem userLogin p.1 p.2 ++ getCompletedReviews userLogin rest := rfl

/-- Claim C6: a PR authored by the authenticated user contributes zero
events to `getCompletedReviews`, regardless of its review-list fetch
outcome: its per-item contribution is empty and deleting it from the
fetched items leaves the returned list unchanged. -/
theorem selfAuthored_contributes_nothing (userLogin : String) (item : SearchItem)
    (res : Option (List GHReview)) (h : loginMatches item.user userLogin = true) :
    eventsForItem userLogin item res = [] ∧
    ∀ pre post : List (SearchItem × Option (List GHReview)),
      getCompletedReviews userLogin (pre ++ (item, res) :: post) =
        getCompletedReviews userLogin (pre ++ post) := by
  have hskip : eventsForItem userLogin item res = [] := by
    rw [eventsForItem.eq_def, if_pos h]
  refine ⟨hskip, ?_⟩
  intro pre post
  induction pre with
  | nil => simp [getCompletedReviews_cons, hskip]
  | cons hd tl ih => simp [getCompletedReviews_cons, ih]

/-- A concrete search item authored by the querying identity. -/
def selfItem : SearchItem :=
  { sampleItem 4 with user := some { login := "alice", avatar_url := "" } }

/-- A concrete submitted review by the querying identity. -/
def sampleGHReview : GHReview :=
  { user := some { login := "alice", avatar_url := "" }
    state := "APPROVED"
    submitted_at := some "2024-01-01T10:00:00Z" }

set_option maxRecDepth 8000 in
/-- Witness for claim C6: a self-authored PR with a non-empty submitted
review list contributes nothing. -/
theorem selfAuthored_contributes_nothing_witness :
    eventsForItem "alice" selfItem (some [sampleGHReview]) = [] ∧
    getCompletedReviews "alice" [(selfItem, some [sampleGHReview]), (sampleItem 5, none)] =
      getCompletedReviews "alice" [(sampleItem 5, none)] :=
  ⟨(selfAuthored_contributes_nothing "alice" selfItem (some [sampleGHReview]) (by decide)).1,
   (selfAuthored_contributes_nothing "alice" selfItem (some [sampleGHReview]) (by decide)).2
     [] [(sampleItem 5, none)]⟩

/-- Claim C10: `checkForNewReviews` returns the clamped difference
`max 0 (current - previousStored)` — in particular it is never negative,
equals the exact difference when the current count is at least the stored
one and 0 otherwise — and it stores the current count as the new
previous count. -/
theorem checkForNewReviews_spec (items : List (SearchItem × Option PRDetail))
    (previousStored : Option Nat) :
    0 ≤ (checkForNewReviews items previousStored).1 ∧
    (checkForNewReviews items previousStored).2 = (getAssignedPRReviews items).length ∧
    (previousStored.getD 0 ≤ (getAssignedPRReviews items).length →
      (checkForNewReviews items previousStored).1 =
        ((getAssignedPRReviews items).length : Int) - (previousStored.getD 0 : Int)) ∧
    ((getAssignedPRReviews items).length < previousStored.getD 0 →
      (checkForNewReviews items previousStored).1 = 0) := by
  have h1 : (checkForNewReviews items previousStored).1 =
      max 0 (((getAssignedPRReviews items).length : Int) - (previousStored.getD 0 : Int)) := rfl
  refine ⟨?_, rfl, ?_, ?_⟩
  · rw [h1]
    exact le_max_left 0 _
  · intro h
    rw [h1, max_eq_right (by omega)]
  · intro h
    rw [h1, max_eq_left (by omega)]

/-- Witness for claim C10: an empty fetch against a stored count of 5
yields delta 0 (not −5) and stores 0. -/
theorem checkForNewReviews_spec_witness :
    0 ≤ (checkForNewReviews [] (some 5)).1 ∧
    (checkForNewReviews [] (some 5)).2 = (getAssignedPRReviews []).length ∧
    (checkForNewReviews [] (some 5)).1 = 0 :=
  ⟨(checkForNewReviews_spec [] (some 5)).1,
   (checkForNewReviews_spec [] (some 5)).2.1,
   (checkForNewReviews_spec [] (some 5)).2.2.2 (by decide)⟩

example : dayToStr 0 = "1970-01-01" := by decide
example : dayToStr 19723 = "2024-01-01" := by decide
example : dateKeyOf "2024-01-01T10:00:00Z" = "2024-01-01" := by decide
example : urlOwner "https://api.github.com/repos/foo/bar" = "foo" := by decide
example : urlRepo "https://api.github.com/repos/foo/bar" = "bar" := by decide
